import Mathlib

/-!
Verification of the expense-management backend (src/src/controllers/expense.controller.js).

The controller functions are shallowly embedded: the MongoDB collection is a
`List Expense`, the Redis cache is an association list of live (unexpired)
entries together with availability flags, and each handler is a pure function
from its request data and the adapter states to an `Except`-style outcome plus
the post-operation store.  JSON serialize/parse of cached list results is an
exact round-trip on the data involved, so cached values are modelled at the
value level; the cache KEY, however, is modelled as the literal string the
code builds, since its exact text matters.
-/

set_option autoImplicit false

namespace ExpenseBackend

/-- Calendar date at day resolution (the component of a JS `Date` the
controller's comparisons, `$year`/`$month` extraction and sorting depend on). -/
structure EDate where
  year : Nat
  month : Nat
  day : Nat
deriving DecidableEq

/-- Lexicographic date order, `a <= b`: models `Date` comparison used by the
inclusive `$gte`/`$lte` range filters. -/
def EDate.leb (a b : EDate) : Bool :=
  decide (a.year < b.year ∨ (a.year = b.year ∧
    (a.month < b.month ∨ (a.month = b.month ∧ a.day ≤ b.day))))

/-- Strict lexicographic date order `a < b`, used by the descending sort. -/
def EDate.ltb (a b : EDate) : Bool :=
  decide (a.year < b.year ∨ (a.year = b.year ∧
    (a.month < b.month ∨ (a.month = b.month ∧ a.day < b.day))))

/-- One document of the `Expense` collection.  `eid` is the `_id`; `user` is
the owner reference; amounts are exact rationals (the JS numbers occurring in
the claims are small integers, for which float arithmetic is exact). -/
structure Expense where
  eid : String
  user : String
  amount : Rat
  description : String
  date : EDate
  category : String
  paymentMethod : String
deriving DecidableEq

/-- Outcomes thrown by a handler: an ApiError (status, message) raised by the
controller itself, or a rejected promise from an adapter, which asyncHandler
turns into a server error - the store or cache being unreachable, or the
store rejecting an aggregation pipeline at parse time. -/
inductive HandlerError where
  | api (status : Nat) (message : String)
  | storeDown
  | cacheDown
  | pipelineParse
deriving DecidableEq

/-- Decidable equality of handler outcomes, so that witnesses can be checked
by evaluation. -/
instance instDecidableEqExcept {ε α : Type} [DecidableEq ε] [DecidableEq α] :
    DecidableEq (Except ε α)
  | .ok a, .ok b => decidable_of_iff (a = b) (by simp)
  | .error a, .error b => decidable_of_iff (a = b) (by simp)
  | .ok _, .error _ => isFalse (by simp)
  | .error _, .ok _ => isFalse (by simp)

/-- Parse of an ISO-style "Y-M-D" date string, as `new Date(s)` does for the
date strings this API receives; other formats are outside the model and fall
back to the epoch. -/
def parseDate (s : String) : EDate :=
  match (s.splitOn "-").map String.toNat? with
  | [some y, some m, some d] => ⟨y, m, d⟩
  | _ => ⟨1970, 1, 1⟩

/-- JS truthiness of a possibly-absent number: `!x` holds for `undefined` and
for `0`. -/
def truthyNum : Option Rat → Bool
  | none => false
  | some a => a != 0

/-- JS truthiness of a possibly-absent string: `!s` holds for `undefined` and
for the empty string. -/
def truthyStr : Option String → Bool
  | none => false
  | some s => s != ""

/-! ### addExpense (controller lines 8-28) -/

/-- The body of an add request, fields possibly absent (`undefined`). -/
structure AddBody where
  amount : Option Rat
  description : Option String
  date : Option String
  category : Option String
  paymentMethod : Option String
deriving DecidableEq

/-- addExpense: validates all five fields by truthiness, then creates one
record owned by the caller (`freshId` models the system-generated `_id`).
Returns the handler outcome and the post-operation store. -/
def addExpense (userId freshId : String) (b : AddBody) (records : List Expense) :
    (Except HandlerError Expense) × List Expense :=
  if !(truthyNum b.amount && truthyStr b.description && truthyStr b.date
      && truthyStr b.category && truthyStr b.paymentMethod) then
    (.error (.api 400 "All fields are required"), records)
  else
    let e : Expense :=
      { eid := freshId, user := userId, amount := b.amount.getD 0,
        description := b.description.getD "", date := parseDate (b.date.getD ""),
        category := b.category.getD "", paymentMethod := b.paymentMethod.getD "" }
    (.ok e, records ++ [e])

/-! ### getExpenses (controller lines 30-83) -/

/-- First value bound to key `k` in `req.query`, seen as an ordered list of
(key, value) pairs in query-string encoding order. -/
def qget (q : List (String × String)) (k : String) : Option String :=
  (q.find? (fun p => p.1 == k)).map (fun p => p.2)

/-- Parse of a string of decimal digits, as JS numeric coercion reads the
claims' page/limit values (non-numeric strings are outside the model). -/
def parseNatStr (s : String) : Option Nat :=
  if s.data.isEmpty then none
  else if s.data.all (fun c => c.isDigit) then
    some (s.data.foldl (fun n c => n * 10 + (c.toNat - 48)) 0)
  else none

/-- Numeric query parameter with destructuring default (`page = 1`,
`limit = 10`); the claims only exercise absent or numeric values. -/
def qnum (q : List (String × String)) (k : String) (dflt : Nat) : Nat :=
  match qget q k with
  | some s => (parseNatStr s).getD dflt
  | none => dflt

/-- JSON.stringify of `req.query` (string-valued object, insertion =
encoding order; none of the claims' keys or values need escaping). -/
def stringifyQuery (q : List (String × String)) : String :=
  "\x7b" ++ String.intercalate ","
    (q.map (fun p => "\"" ++ p.1 ++ "\":\"" ++ p.2 ++ "\"")) ++ "\x7d"

/-- Controller line 41: the cache key template string. -/
def cacheKey (userId : String) (q : List (String × String)) : String :=
  "expenses:" ++ userId ++ ":" ++ stringifyQuery q

/-- The Mongo filter object built at lines 56-61: owner always, category /
paymentMethod when truthy, date range only when both bounds truthy. -/
structure StoreQuery where
  user : String
  category : Option String
  paymentMethod : Option String
  dateRange : Option (EDate × EDate)
deriving DecidableEq

/-- Build the store filter from the destructured query parameters, with JS
truthiness deciding which optional clauses are added. -/
def buildListQuery (userId : String) (q : List (String × String)) : StoreQuery :=
  let category := qget q "category"
  let paymentMethod := qget q "paymentMethod"
  let startDate := qget q "startDate"
  let endDate := qget q "endDate"
  { user := userId
    category := if truthyStr category then category else none
    paymentMethod := if truthyStr paymentMethod then paymentMethod else none
    dateRange :=
      if truthyStr startDate && truthyStr endDate then
        some (parseDate (startDate.getD ""), parseDate (endDate.getD ""))
      else none }

/-- Whether one document matches the filter (`$gte`/`$lte` inclusive). -/
def matchesQuery (sq : StoreQuery) (e : Expense) : Bool :=
  e.user == sq.user
  && (match sq.category with | some c => e.category == c | none => true)
  && (match sq.paymentMethod with | some pm => e.paymentMethod == pm | none => true)
  && (match sq.dateRange with
      | some r => EDate.leb r.1 e.date && EDate.leb e.date r.2
      | none => true)

/-- `Expense.find(query)` before sort/skip/limit. -/
def findExpenses (sq : StoreQuery) (records : List Expense) : List Expense :=
  records.filter (matchesQuery sq)

/-- The set of records the list endpoint's store filter selects. -/
def listMatching (userId : String) (q : List (String × String))
    (records : List Expense) : List Expense :=
  findExpenses (buildListQuery userId q) records

/-- Insert one record into a list kept in descending date order. -/
def insertByDateDesc (e : Expense) : List Expense → List Expense
  | [] => [e]
  | x :: xs =>
      if EDate.ltb x.date e.date then e :: x :: xs else x :: insertByDateDesc e xs

/-- `.sort(\x7b date: -1 \x7d)`: the matching records in descending date order. -/
def sortByDateDesc (l : List Expense) : List Expense :=
  l.foldr insertByDateDesc []

/-- `Math.ceil(total / limit)` on non-negative integers, computed over exact
rationals (JS floats are exact on the integers involved). -/
def mathCeilDiv (total limit : Nat) : Nat :=
  (Int.ceil ((total : ℚ) / (limit : ℚ))).toNat

/-- The composed page result cached and returned by the list endpoint. -/
structure ListResult where
  expenses : List Expense
  total : Nat
  page : Nat
  totalPages : Nat
deriving DecidableEq

/-- One live (not yet expired) Redis entry: TTL it was set with, and the
cached serialized result, modelled at the value level since JSON
stringify/parse round-trips the data exactly. -/
structure CacheEntry where
  ttl : Nat
  value : ListResult
deriving DecidableEq

/-- The Redis adapter: live entries plus availability of its two operations
(`getUp` / `setUp` false models a rejected promise from the client). -/
structure CacheState where
  entries : List (String × CacheEntry)
  getUp : Bool
  setUp : Bool
deriving DecidableEq

/-- `redisClient.get`: rejects when the cache is unreachable, otherwise
returns the live entry (or null on miss). -/
def cacheGet (c : CacheState) (k : String) : Except HandlerError (Option CacheEntry) :=
  if c.getUp then .ok (List.lookup k c.entries) else .error .cacheDown

/-- `redisClient.setEx`: rejects when unreachable, otherwise stores the value
under the key with the given TTL (overwriting any previous entry). -/
def cacheSetEx (c : CacheState) (k : String) (ttl : Nat) (v : ListResult) :
    Except HandlerError CacheState :=
  if c.setUp then .ok { c with entries := (k, ⟨ttl, v⟩) :: c.entries }
  else .error .cacheDown

/-- Outcome of a successful list request: response payload, response message
(which tags the source: cache vs store), the cache state afterwards, and
whether the store was queried. -/
structure ListOutcome where
  data : ListResult
  message : String
  cache : CacheState
  storeQueried : Bool
deriving DecidableEq

/-- Lines 63-75 of the controller: the store-sourced page result - matching
records sorted by date descending, skip (page-1)*limit, take limit - together
with the total matching count and totalPages. -/
def listMissResult (userId : String) (q : List (String × String))
    (records : List Expense) : ListResult :=
  let page := qnum q "page" 1
  let limit := qnum q "limit" 10
  let matching := listMatching userId q records
  { expenses := ((sortByDateDesc matching).drop ((page - 1) * limit)).take limit
    total := matching.length
    page := page
    totalPages := mathCeilDiv matching.length limit }

/-- getExpenses: cache-aside list endpoint.  `dbUp` models availability of the
Mongo adapter.  Every `await` on an adapter that rejects propagates out of the
handler (asyncHandler turns it into an error response). -/
def getExpenses (userId : String) (q : List (String × String))
    (records : List Expense) (dbUp : Bool) (c : CacheState) :
    Except HandlerError ListOutcome :=
  let key := cacheKey userId q
  match cacheGet c key with
  | .error err => .error err
  | .ok (some entry) =>
      .ok { data := entry.value, message := "Expenses retrieved from cache",
            cache := c, storeQueried := false }
  | .ok none =>
      if !dbUp then .error .storeDown
      else
        let result := listMissResult userId q records
        match cacheSetEx c key 300 result with
        | .error err => .error err
        | .ok c2 =>
            .ok { data := result, message := "Expenses retrieved successfully",
                  cache := c2, storeQueried := true }

/-! ### updateExpense (lines 85-103) and deleteExpense (lines 105-118) -/

/-- The body of an update request; the claims cover the documented case of all
five fields being supplied. -/
structure UpdateBody where
  amount : Rat
  description : String
  date : EDate
  category : String
  paymentMethod : String
deriving DecidableEq

/-- The full-field replacement the update document performs. -/
def applyUpdate (b : UpdateBody) (e : Expense) : Expense :=
  { e with amount := b.amount, description := b.description, date := b.date,
           category := b.category, paymentMethod := b.paymentMethod }

/-- `Expense.findOneAndUpdate(\x7b _id: id, user: userId \x7d, body, \x7b new: true \x7d)`:
returns the updated document (or none) and the post-operation collection. -/
def findOneAndUpdate (id userId : String) (b : UpdateBody) :
    List Expense → Option Expense × List Expense
  | [] => (none, [])
  | e :: rest =>
      if e.eid == id && e.user == userId then
        (some (applyUpdate b e), applyUpdate b e :: rest)
      else
        let r := findOneAndUpdate id userId b rest
        (r.1, e :: r.2)

/-- updateExpense handler: 404 when the owner-scoped lookup matches nothing. -/
def updateExpense (userId id : String) (b : UpdateBody) (records : List Expense) :
    (Except HandlerError Expense) × List Expense :=
  let r := findOneAndUpdate id userId b records
  match r.1 with
  | none => (.error (.api 404 "Expense not found"), r.2)
  | some e => (.ok e, r.2)

/-- `Expense.findOneAndDelete(\x7b _id: id, user: userId \x7d)`. -/
def findOneAndDelete (id userId : String) :
    List Expense → Option Expense × List Expense
  | [] => (none, [])
  | e :: rest =>
      if e.eid == id && e.user == userId then (some e, rest)
      else
        let r := findOneAndDelete id userId rest
        (r.1, e :: r.2)

/-- deleteExpense handler: 404 when nothing matched; on success the response
payload is null, so the success value is `Unit`. -/
def deleteExpense (userId id : String) (records : List Expense) :
    (Except HandlerError Unit) × List Expense :=
  let r := findOneAndDelete id userId records
  match r.1 with
  | none => (.error (.api 404 "Expense not found"), r.2)
  | some _ => (.ok (), r.2)

/-! ### getExpenseStatistics (lines 120-225)

Two layers are embedded.

First, the denotation the pipeline's author intended, stage by stage: the
`$match` stage is a filter, the `$group` stage (one group, `_id: null`)
yields `$sum` / `$avg` of amount plus the pushed (category, amount) and
(year, month, amount) arrays, and the `$project` stage's `$reduce` /
`$mergeObjects` folds accumulate those arrays into key-to-sum objects,
adding each amount to the bucket under the record's category, respectively
its "<year>-<month>" string; an empty match forms no group, so the handler's
`statistics[0] || \x7b\x7d` payload would be `none` (the empty object).

Second, what the store actually does with the pipeline.  MongoDB never
evaluates field names of object literals inside aggregation expressions: in
expression context a document whose single field name begins with '$' must
name a known operator, any other '$'-prefixed field name is rejected at
pipeline parse, and components of a field-path string after the first may
not begin with '$' either.  The `$project` stage as written uses the literal
keys "$$this.category" (line 167) and "$$monthYear" (line 197 - a plain JS
identifier key, so the property name is that literal string) and the field
path "$$value.$$this.category" (line 168; likewise "$$value.$$monthYear" at
line 199), all three of which violate those rules.  The parse failure
happens before any document is read, so `Expense.aggregate` rejects on every
call and the handler always propagates an error: the fold denotation below
is dead code in the program.  This is modelled by transcribing the
`$project` stage as a BSON-like tree and validating it with the rules
above. -/

/-- One `$mergeObjects` step of the reduce folds: add `a` to the bucket keyed
`k`, creating the bucket (at the end, as object merge does) if absent. -/
def bump (m : List (String × Rat)) (k : String) (a : Rat) : List (String × Rat) :=
  match m with
  | [] => [(k, a)]
  | (k2, v) :: rest => if k2 == k then (k2, v + a) :: rest else (k2, v) :: bump rest k a

/-- The `$concat [$toString $year, "-", $toString $month]` grouping key:
month numeric 1-12, not zero-padded. -/
def monthKey (d : EDate) : String := toString d.year ++ "-" ++ toString d.month

/-- `$sum` of amount over a list of records. -/
def amountSum (l : List Expense) : Rat := l.foldl (fun s e => s + e.amount) 0

/-- The reduce fold: accumulate every record's amount into the bucket of its
key (category, or year-month string). -/
def accumBy (key : Expense → String) (l : List Expense) : List (String × Rat) :=
  l.foldl (fun m e => bump m (key e) e.amount) []

/-- The one statistics document the pipeline produces, shaped by the
`$project` stage. -/
structure StatsResult where
  totalExpenses : Rat
  averageExpense : Rat
  expensesByCategory : List (String × Rat)
  expensesByMonth : List (String × Rat)
deriving DecidableEq

/-- The whole pipeline after `$match`: none when no document matched (no
group is formed), otherwise the sums, the mean, and the two accumulated
objects. -/
def aggregateStats (l : List Expense) : Option StatsResult :=
  if l.isEmpty then none
  else some
    { totalExpenses := amountSum l
      averageExpense := amountSum l / (l.length : Rat)
      expensesByCategory := accumBy Expense.category l
      expensesByMonth := accumBy (fun e => monthKey e.date) l }

/-- `startDate || "1970-01-01"` / `endDate || new Date()`: JS falsiness of the
optional query string selects the default bound. -/
def orElseDate (o : Option String) (dflt : EDate) : EDate :=
  match o with
  | some t => if t = "" then dflt else parseDate t
  | none => dflt

/-- The `$match` stage: owner plus inclusive date range. -/
def statsMatch (userId : String) (startDate endDate : EDate)
    (records : List Expense) : List Expense :=
  records.filter (fun e =>
    e.user == userId && EDate.leb startDate e.date && EDate.leb e.date endDate)

/-- The records the statistics request aggregates over, with the default
bounds applied (`now` is the clock value `new Date()` reads). -/
def statsInput (userId : String) (startDate endDate : Option String)
    (now : EDate) (records : List Expense) : List Expense :=
  statsMatch userId (orElseDate startDate ⟨1970, 1, 1⟩) (orElseDate endDate now) records

/-- A value of the pipeline document as the driver sends it: string, number,
document (ordered fields) or array. -/
inductive BsonVal where
  | str (s : String)
  | num (n : Int)
  | doc (fields : List (String × BsonVal))
  | arr (elems : List BsonVal)
deriving Inhabited

/-- Whether a character list begins with '$'. -/
def startsDollar : List Char → Bool
  | c :: _ => c == '$'
  | [] => false

/-- Split a character list on '.', keeping empty components. -/
def splitOnDot : List Char → List (List Char)
  | [] => [[]]
  | c :: rest =>
      if c = '.' then [] :: splitOnDot rest
      else
        match splitOnDot rest with
        | [] => [[c]]
        | g :: gs => (c :: g) :: gs

/-- Validity of a '$'-prefixed field-path string: after the leading "$" (field
path) or "$$" (variable), every '.'-separated component past the first must
not itself begin with '$'.  "$$value.$$this.category" fails here. -/
def pathOk (s : String) : Bool :=
  let body := if s.data.take 2 = ['$', '$'] then s.data.drop 2 else s.data.drop 1
  match splitOnDot body with
  | [] => false
  | _ :: rest => rest.all (fun comp => !startsDollar comp)

/-- The aggregation-expression operators this pipeline uses; MongoDB accepts
a single-field document in expression context only when its '$'-name is a
recognized operator. -/
def mongoOps : List String :=
  ["$sum", "$avg", "$push", "$mergeObjects", "$reduce", "$let", "$concat",
   "$toString", "$ifNull", "$month", "$year", "$literal", "$add"]

/-- MongoDB's parse-time validation of an aggregation expression, to the
depth this pipeline needs (`fuel` bounds the recursion; the transcribed
stage has depth under 20): '$'-prefixed strings must be valid paths, a
single-field document whose name begins with '$' must name a known operator,
and no other document field name may begin with '$'. -/
def exprValid : Nat → BsonVal → Bool
  | 0, _ => false
  | _ + 1, .num _ => true
  | _ + 1, .str s => if startsDollar s.data then pathOk s else true
  | fuel + 1, .arr es => es.all (fun e => exprValid fuel e)
  | fuel + 1, .doc [(k, v)] =>
      if startsDollar k.data then mongoOps.contains k && exprValid fuel v
      else exprValid fuel v
  | fuel + 1, .doc fields =>
      fields.all (fun p => !startsDollar p.1.data && exprValid fuel p.2)

/-- The `$project` stage of the statistics pipeline (controller lines
154-213), transcribed field by field; the four argument strings are the two
object-literal keys and the two accumulator field paths of the dynamic-key
buckets, which in the source are "$$this.category" / "$$value.$$this.category"
(category fold) and "$$monthYear" / "$$value.$$monthYear" (month fold). -/
def statsProjectStageWith (catKey catPath mKey mPath : String) : BsonVal :=
  .doc [
    ("_id", .num 0),
    ("totalExpenses", .num 1),
    ("averageExpense", .num 1),
    ("expensesByCategory", .doc [("$reduce", .doc [
        ("input", .str "$expensesByCategory"),
        ("initialValue", .doc []),
        ("in", .doc [("$mergeObjects", .arr [
            .str "$$value",
            .doc [(catKey, .doc [("$sum", .arr [
                .str catPath, .str "$$this.amount"])])]])])])]),
    ("expensesByMonth", .doc [("$reduce", .doc [
        ("input", .str "$expensesByMonth"),
        ("initialValue", .doc []),
        ("in", .doc [("$mergeObjects", .arr [
            .str "$$value",
            .doc [("$let", .doc [
                ("vars", .doc [("monthYear", .doc [("$concat", .arr [
                    .doc [("$toString", .str "$$this.year")],
                    .str "-",
                    .doc [("$toString", .str "$$this.month")]])])]),
                ("in", .doc [("$mergeObjects", .arr [
                    .str "$$value",
                    .doc [(mKey, .doc [("$sum", .arr [
                        .doc [("$ifNull", .arr [.str mPath, .num 0])],
                        .str "$$this.amount"])])]])])])]])])])])]

/-- The `$project` stage exactly as the source writes it. -/
def statsProjectStage : BsonVal :=
  statsProjectStageWith "$$this.category" "$$value.$$this.category"
    "$$monthYear" "$$value.$$monthYear"

/-- Whether the store accepts the statistics pipeline at parse time. -/
def statsPipelineAccepted : Bool := exprValid 32 statsProjectStage

/-- getExpenseStatistics handler: `await Expense.aggregate([...])` rejects
whenever the store rejects the pipeline at parse, and asyncHandler turns
that rejection into an error response; only if the pipeline were accepted
would the handler reach `statistics[0] || \x7b\x7d` (payload `none`
modelling the empty object \x7b\x7d). -/
def getExpenseStatistics (userId : String) (startDate endDate : Option String)
    (now : EDate) (records : List Expense) :
    Except HandlerError (Option StatsResult) :=
  if statsPipelineAccepted then
    .ok (aggregateStats (statsInput userId startDate endDate now records))
  else .error .pipelineParse

/-! ### bulkDeleteExpenses (lines 262-284) -/

/-- The `ids` field of the bulk delete body as JSON delivers it: absent,
present but not an array, or an array of id strings. -/
inductive BodyIds where
  | missing
  | notAnArray
  | arr (ids : List String)
deriving DecidableEq

/-- bulkDeleteExpenses: rejects a missing / non-array / empty id list,
otherwise `deleteMany(\x7b _id: \x7b $in: ids \x7d, user: userId \x7d)` and
answers with the deleted count. -/
def bulkDeleteExpenses (userId : String) (body : BodyIds) (records : List Expense) :
    (Except HandlerError Nat) × List Expense :=
  match body with
  | .arr ids =>
      if ids.isEmpty then
        (.error (.api 400 "Valid expense IDs are required"), records)
      else
        let pred := fun e : Expense => ids.contains e.eid && e.user == userId
        (.ok (records.countP pred), records.filter (fun e => !pred e))
  | _ => (.error (.api 400 "Valid expense IDs are required"), records)

/-! ### Concrete inputs used by the witnesses and counterexamples -/

/-- Three-record store from the spec's statistics test vector: amounts 10, 20,
30, all category "food", all in month 2024-1, owned by user "A". -/
def stats3 : List Expense :=
  [ { eid := "1", user := "A", amount := 10, description := "a",
      date := ⟨2024, 1, 5⟩, category := "food", paymentMethod := "card" },
    { eid := "2", user := "A", amount := 20, description := "b",
      date := ⟨2024, 1, 10⟩, category := "food", paymentMethod := "card" },
    { eid := "3", user := "A", amount := 30, description := "c",
      date := ⟨2024, 1, 15⟩, category := "food", paymentMethod := "cash" } ]

/-- One of 25 homogeneous records for the pagination test vector. -/
def pageRec (i : Nat) : Expense :=
  { eid := toString i, user := "A", amount := 1, description := "r",
    date := ⟨2024, 1, i % 28 + 1⟩, category := "c", paymentMethod := "m" }

/-- The 25-record store of the pagination test vector. -/
def records25 : List Expense := (List.range 25).map pageRec

/-- A healthy, empty cache. -/
def cacheEmptyUp : CacheState := { entries := [], getUp := true, setUp := true }

/-- Two-owner store: user "A" owns expense "1", user "B" owns expense "3". -/
def mixedStore : List Expense :=
  [ { eid := "1", user := "A", amount := 5, description := "a",
      date := ⟨2024, 2, 1⟩, category := "food", paymentMethod := "card" },
    { eid := "3", user := "B", amount := 7, description := "b",
      date := ⟨2024, 2, 2⟩, category := "food", paymentMethod := "card" } ]

/-! ## Helper lemmas -/

theorem EDate.leb_of_ltb_eq_false {a b : EDate} (h : EDate.ltb a b = false) :
    EDate.leb b a = true := by
  simp only [EDate.ltb, decide_eq_false_iff_not] at h
  simp only [EDate.leb, decide_eq_true_eq]
  omega

theorem amountSum_shift (l : List Expense) (s : Rat) :
    l.foldl (fun s e => s + e.amount) s = s + l.foldl (fun s e => s + e.amount) 0 := by
  induction l generalizing s with
  | nil => simp
  | cons e l ih =>
      simp only [List.foldl_cons]
      rw [ih (s + e.amount), ih (0 + e.amount)]
      ring

theorem amountSum_cons (e : Expense) (l : List Expense) :
    amountSum (e :: l) = e.amount + amountSum l := by
  simp only [amountSum, List.foldl_cons]
  rw [amountSum_shift]
  ring

theorem lookup_bump_self (m : List (String × Rat)) (k : String) (a : Rat) :
    List.lookup k (bump m k a) = some ((List.lookup k m).getD 0 + a) := by
  induction m with
  | nil => simp [bump]
  | cons p rest ih =>
      obtain ⟨k2, v⟩ := p
      by_cases h : k2 = k
      · subst h
        simp [bump]
      · have hb : (k2 == k) = false := beq_eq_false_iff_ne.mpr h
        have hb2 : (k == k2) = false := beq_eq_false_iff_ne.mpr (Ne.symm h)
        simp [bump, hb, hb2, List.lookup, ih]

theorem lookup_bump_ne (m : List (String × Rat)) (k k2 : String) (a : Rat)
    (h : k2 ≠ k) : List.lookup k2 (bump m k a) = List.lookup k2 m := by
  induction m with
  | nil => simp [bump, List.lookup, beq_eq_false_iff_ne.mpr h]
  | cons p rest ih =>
      obtain ⟨k3, v⟩ := p
      by_cases h3 : k3 = k
      · subst h3
        simp [bump, List.lookup, beq_eq_false_iff_ne.mpr h]
      · simp [bump, beq_eq_false_iff_ne.mpr h3, List.lookup, ih]

theorem lookup_foldl_bump (key : Expense → String) (k : String)
    (l : List Expense) : ∀ m : List (String × Rat),
    List.lookup k (l.foldl (fun acc e => bump acc (key e) e.amount) m) =
      match List.lookup k m with
      | some v => some (v + amountSum (l.filter (fun e => key e == k)))
      | none =>
          if (l.filter (fun e => key e == k)).isEmpty then none
          else some (amountSum (l.filter (fun e => key e == k))) := by
  induction l with
  | nil =>
      intro m
      cases hm : List.lookup k m <;> simp [hm, amountSum]
  | cons e l ih =>
      intro m
      by_cases hke : key e = k
      · have hkeb : (key e == k) = true := beq_iff_eq.mpr hke
        have hstep : List.lookup k (bump m (key e) e.amount) =
            some ((List.lookup k m).getD 0 + e.amount) := by
          rw [hke, lookup_bump_self]
        simp only [List.foldl_cons, ih (bump m (key e) e.amount), hstep,
          List.filter_cons, hkeb, if_pos trivial]
        cases hm : List.lookup k m <;>
          simp [hm, List.isEmpty, amountSum_cons, add_assoc]
      · have hkeb : (key e == k) = false := beq_eq_false_iff_ne.mpr hke
        simp only [List.foldl_cons, ih (bump m (key e) e.amount),
          lookup_bump_ne m (key e) k e.amount (Ne.symm hke),
          List.filter_cons, hkeb]
        simp

/-- Per-key characterization of the reduce/merge fold: the accumulated object
has a bucket for a key exactly when some record carries it, holding the sum of
those records' amounts. -/
theorem lookup_accumBy (key : Expense → String) (k : String) (l : List Expense) :
    List.lookup k (accumBy key l) =
      if (l.filter (fun e => key e == k)).isEmpty then none
      else some (amountSum (l.filter (fun e => key e == k))) := by
  have h := lookup_foldl_bump key k l []
  simpa [accumBy] using h

/-! ## Claim theorems -/

/-- The author-intended denotation of the aggregation (dead code in the
program, since the store rejects the pipeline): on a non-empty input,
aggregateStats yields the amount sum, the arithmetic mean, and bucket
objects holding a key exactly for each occurring category label /
"<year>-<month>" string, mapped to the per-key amount sums. -/
theorem aggregateStats_denotation (l : List Expense) (h : l ≠ []) :
    ∃ st,
      aggregateStats l = some st ∧
      st.totalExpenses = amountSum l ∧
      st.averageExpense = amountSum l / (l.length : Rat) ∧
      (∀ c : String,
        List.lookup c st.expensesByCategory =
          if (l.filter (fun e => e.category == c)).isEmpty then none
          else some (amountSum (l.filter (fun e => e.category == c)))) ∧
      (∀ mk : String,
        List.lookup mk st.expensesByMonth =
          if (l.filter (fun e => monthKey e.date == mk)).isEmpty then none
          else some (amountSum (l.filter (fun e => monthKey e.date == mk)))) := by
  have hne : l.isEmpty = false := by
    cases hl : l
    · exact absurd hl h
    · rfl
  refine ⟨{ totalExpenses := amountSum l,
            averageExpense := amountSum l / (l.length : Rat),
            expensesByCategory := accumBy Expense.category l,
            expensesByMonth := accumBy (fun e => monthKey e.date) l },
    ?_, rfl, rfl, ?_, ?_⟩
  · simp [aggregateStats, hne]
  · intro c
    exact lookup_accumBy Expense.category c _
  · intro mk
    exact lookup_accumBy (fun e => monthKey e.date) mk _

/-- Sanity check on the pipeline validator: the very same `$project` stage is
accepted once the two dynamic-key object literals and the two accumulator
paths are replaced by well-formed ones, so the rejection of the source's
stage is caused exactly by "$$this.category", "$$value.$$this.category",
"$$monthYear" and "$$value.$$monthYear". -/
theorem statsProjectStage_valid_with_plain_keys :
    exprValid 32 (statsProjectStageWith "cat" "$$value.cat" "m" "$$value.m") =
      true := by decide

/-- C1: the claim describes what the statistics endpoint is meant to return,
but the endpoint can never return it: the store rejects the pipeline at
parse time on every call (the claim's own code lines 139-211 contain the
invalid dynamic keys), so at the spec's test vector - amounts 10, 20, 30,
all "food", all in 2024-1 - the request fails with the aggregation error,
even though the intended fold of that very input yields exactly the claimed
totalExpenses 60, averageExpense 20, {"food": 60} and
{"2024-1": 60} (third conjunct, computed on the dead success path). -/
theorem getExpenseStatistics_always_rejects_stats_vector :
    statsPipelineAccepted = false ∧
    getExpenseStatistics "A" none none ⟨2024, 12, 31⟩ stats3 =
      .error .pipelineParse ∧
    aggregateStats (statsInput "A" none none ⟨2024, 12, 31⟩ stats3) =
      some ⟨60, 20, [("food", 60)], [("2024-1", 60)]⟩ := by
  refine ⟨by decide, rfl, ?_⟩
  have hm5 : monthKey ⟨2024, 1, 5⟩ = "2024-1" := by decide
  have hm10 : monthKey ⟨2024, 1, 10⟩ = "2024-1" := by decide
  have hm15 : monthKey ⟨2024, 1, 15⟩ = "2024-1" := by decide
  norm_num [aggregateStats, statsInput, statsMatch, orElseDate,
    stats3, EDate.leb, accumBy, amountSum, bump, hm5, hm10, hm15]

/-- C2: with zero matching records the request does not return the claimed
empty result object: the pipeline parse failure precedes any reading of
records, so the handler fails with the aggregation error here too.  Only the
dead success path would produce the empty object `{}` (second
conjunct) - in which totalExpenses would moreover be absent, not 0. -/
theorem getExpenseStatistics_always_rejects_empty :
    getExpenseStatistics "A" none none ⟨2024, 1, 1⟩ [] = .error .pipelineParse ∧
    aggregateStats (statsInput "A" none none ⟨2024, 1, 1⟩ []) = none :=
  ⟨rfl, rfl⟩

/-- C3 counterexample: the same owner and the same filter values, arriving in
a different query-string encoding order, produce different cache keys:
JSON.stringify of req.query preserves encoding order. -/
theorem cacheKey_order_cex :
    cacheKey "A" [("category", "food"), ("page", "1")] ≠
      cacheKey "A" [("page", "1"), ("category", "food")] := by decide

/-- C3 (amended): the cache key equals "expenses:" ++ ownerId ++ ":" ++ the
JSON serialization of the query parameters in their encoding order, and two
keys of the same owner coincide exactly when those serializations coincide -
so two list requests by the same owner agree on the cache slot when their
encoded parameter lists agree, but not necessarily under reordering. -/
theorem cacheKey_amended (userId : String) (q q2 : List (String × String)) :
    cacheKey userId q = "expenses:" ++ userId ++ ":" ++ stringifyQuery q ∧
    (cacheKey userId q = cacheKey userId q2 ↔ stringifyQuery q = stringifyQuery q2) := by
  refine ⟨rfl, ?_, ?_⟩
  · intro h
    have h2 := congrArg String.data h
    simp only [cacheKey, String.data_append, List.append_assoc] at h2
    exact String.ext
      (List.append_cancel_left (List.append_cancel_left (List.append_cancel_left h2)))
  · intro h
    simp [cacheKey, h]

/-- On a healthy cache with a miss, getExpenses queries the store, answers
store-sourced, and writes the result under the key with TTL 300. -/
theorem getExpenses_miss (userId : String) (q : List (String × String))
    (records : List Expense) (c : CacheState) (hget : c.getUp = true)
    (hset : c.setUp = true)
    (hmiss : List.lookup (cacheKey userId q) c.entries = none) :
    getExpenses userId q records true c =
      .ok { data := listMissResult userId q records,
            message := "Expenses retrieved successfully",
            cache := { c with entries :=
              (cacheKey userId q, ⟨300, listMissResult userId q records⟩) :: c.entries },
            storeQueried := true } := by
  simp [getExpenses, cacheGet, hget, hmiss, cacheSetEx, hset]

/-- On a live cache entry under the key, getExpenses answers from the cache,
leaving the cache unchanged and never touching the store. -/
theorem getExpenses_hit (userId : String) (q : List (String × String))
    (records : List Expense) (dbUp : Bool) (c : CacheState) (entry : CacheEntry)
    (hget : c.getUp = true)
    (hhit : List.lookup (cacheKey userId q) c.entries = some entry) :
    getExpenses userId q records dbUp c =
      .ok { data := entry.value, message := "Expenses retrieved from cache",
            cache := c, storeQueried := false } := by
  simp [getExpenses, cacheGet, hget, hhit]

/-- C4: the code does not absorb cache failures.  With the store healthy and
holding matching records, a rejecting cache read makes the whole request fail
with the cache error, and so does a rejecting cache write issued after the
store has already produced the result - instead of degrading to the
store-sourced result as claimed.  (Store unavailability on a cache miss does
propagate, as the claim also says.) -/
theorem getExpenses_cache_failure_propagates :
    getExpenses "A" [] stats3 true { entries := [], getUp := false, setUp := true } =
      .error .cacheDown ∧
    getExpenses "A" [] stats3 true { entries := [], getUp := true, setUp := false } =
      .error .cacheDown ∧
    getExpenses "A" [] stats3 false { entries := [], getUp := true, setUp := true } =
      .error .storeDown := by
  refine ⟨rfl, rfl, rfl⟩

/-- C5: with the cache healthy and no live entry under the derived key, a
first list query is store-sourced and caches its payload under the key with
TTL 300; a second identical query within the TTL window (entry still live)
then succeeds with the identical payload, tagged as cache-sourced, without
querying the store. -/
theorem getExpenses_cache_idempotent
    (userId : String) (q : List (String × String)) (records : List Expense)
    (c : CacheState) (hget : c.getUp = true) (hset : c.setUp = true)
    (hmiss : List.lookup (cacheKey userId q) c.entries = none) :
    ∃ out1,
      getExpenses userId q records true c = .ok out1 ∧
      out1.storeQueried = true ∧
      List.lookup (cacheKey userId q) out1.cache.entries = some ⟨300, out1.data⟩ ∧
      getExpenses userId q records true out1.cache =
        .ok { data := out1.data, message := "Expenses retrieved from cache",
              cache := out1.cache, storeQueried := false } := by
  refine ⟨_, getExpenses_miss userId q records c hget hset hmiss, rfl, ?_, ?_⟩
  · simp [List.lookup]
  · exact getExpenses_hit userId q records true _ ⟨300, listMissResult userId q records⟩
      hget (by simp [List.lookup])

/-- C5 witness: the theorem applied to owner "A", query page=1, the
three-record store, and an empty healthy cache. -/
theorem getExpenses_cache_idempotent_witness :
    cacheEmptyUp.getUp = true ∧ cacheEmptyUp.setUp = true ∧
    List.lookup (cacheKey "A" [("page", "1")]) cacheEmptyUp.entries = none ∧
    (∃ out1,
      getExpenses "A" [("page", "1")] stats3 true cacheEmptyUp = .ok out1 ∧
      out1.storeQueried = true ∧
      List.lookup (cacheKey "A" [("page", "1")]) out1.cache.entries =
        some ⟨300, out1.data⟩ ∧
      getExpenses "A" [("page", "1")] stats3 true out1.cache =
        .ok { data := out1.data, message := "Expenses retrieved from cache",
              cache := out1.cache, storeQueried := false }) :=
  ⟨rfl, rfl, rfl,
    getExpenses_cache_idempotent "A" [("page", "1")] stats3 cacheEmptyUp rfl rfl rfl⟩

theorem EDate.leb_trans {a b c : EDate} (h1 : EDate.leb a b = true)
    (h2 : EDate.leb b c = true) : EDate.leb a c = true := by
  simp only [EDate.leb, decide_eq_true_eq] at h1 h2 ⊢
  omega

theorem perm_insertByDateDesc (e : Expense) (l : List Expense) :
    (insertByDateDesc e l).Perm (e :: l) := by
  induction l with
  | nil => exact List.Perm.refl _
  | cons x xs ih =>
      by_cases h : EDate.ltb x.date e.date = true
      · simp only [insertByDateDesc, if_pos h]
        exact List.Perm.refl _
      · simp only [insertByDateDesc, if_neg h]
        exact (ih.cons x).trans (List.Perm.swap e x xs)

theorem perm_sortByDateDesc (l : List Expense) : (sortByDateDesc l).Perm l := by
  induction l with
  | nil => exact List.Perm.refl _
  | cons e xs ih =>
      exact (perm_insertByDateDesc e (sortByDateDesc xs)).trans (ih.cons e)

theorem length_sortByDateDesc (l : List Expense) :
    (sortByDateDesc l).length = l.length :=
  (perm_sortByDateDesc l).length_eq

theorem pairwise_insertByDateDesc (e : Expense) (l : List Expense)
    (h : l.Pairwise (fun a b => EDate.leb b.date a.date = true)) :
    (insertByDateDesc e l).Pairwise (fun a b => EDate.leb b.date a.date = true) := by
  induction l with
  | nil => simp [insertByDateDesc]
  | cons x xs ih =>
      rcases List.pairwise_cons.mp h with ⟨hx, hxs⟩
      by_cases hlt : EDate.ltb x.date e.date = true
      · have hex : EDate.leb x.date e.date = true := by
          simp only [EDate.ltb, decide_eq_true_eq] at hlt
          simp only [EDate.leb, decide_eq_true_eq]
          omega
        simp only [insertByDateDesc, if_pos hlt]
        refine List.pairwise_cons.mpr ⟨?_, h⟩
        intro b hb
        rcases List.mem_cons.mp hb with rfl | hbxs
        · exact hex
        · exact EDate.leb_trans (hx b hbxs) hex
      · have hxe : EDate.leb e.date x.date = true :=
          EDate.leb_of_ltb_eq_false (Bool.eq_false_iff.mpr hlt)
        simp only [insertByDateDesc, if_neg hlt]
        refine List.pairwise_cons.mpr ⟨?_, ih hxs⟩
        intro b hb
        rcases List.mem_cons.mp ((perm_insertByDateDesc e xs).mem_iff.mp hb) with
          rfl | hbxs
        · exact hxe
        · exact hx b hbxs

theorem pairwise_sortByDateDesc (l : List Expense) :
    (sortByDateDesc l).Pairwise (fun a b => EDate.leb b.date a.date = true) := by
  induction l with
  | nil => simp [sortByDateDesc]
  | cons e xs ih => exact pairwise_insertByDateDesc e (sortByDateDesc xs) ih

theorem mathCeilDiv_eq (n d : Nat) (hd : 0 < d) :
    mathCeilDiv n d = (n + d - 1) / d := by
  obtain ⟨e, rfl⟩ : ∃ e, d = e + 1 := ⟨d - 1, by omega⟩
  have hq : (0 : ℚ) < ((e + 1 : Nat) : ℚ) := by positivity
  have harith : n + (e + 1) - 1 = n + e := by omega
  have hdm : (e + 1) * ((n + e) / (e + 1)) + (n + e) % (e + 1) = n + e :=
    Nat.div_add_mod _ _
  have hlt : (n + e) % (e + 1) < e + 1 := Nat.mod_lt _ (by omega)
  have hdmz : ((e : ℤ) + 1) * (((n + e) / (e + 1) : ℕ) : ℤ) +
      (((n + e) % (e + 1) : ℕ) : ℤ) = (n : ℤ) + e := by exact_mod_cast hdm
  have hltz : (((n + e) % (e + 1) : ℕ) : ℤ) < (e : ℤ) + 1 := by exact_mod_cast hlt
  have hceil : ⌈(n : ℚ) / ((e + 1 : ℕ) : ℚ)⌉ = (((n + e) / (e + 1) : ℕ) : ℤ) := by
    rw [Int.ceil_eq_iff]
    constructor
    · rw [lt_div_iff₀ hq]
      have hz : ((((n + e) / (e + 1) : ℕ) : ℤ) - 1) * ((e : ℤ) + 1) < (n : ℤ) := by
        nlinarith [hdmz, hltz, Int.natCast_nonneg ((n + e) % (e + 1))]
      exact_mod_cast hz
    · rw [div_le_iff₀ hq]
      have hz : (n : ℤ) ≤ (((n + e) / (e + 1) : ℕ) : ℤ) * ((e : ℤ) + 1) := by
        nlinarith [hdmz, hltz]
      exact_mod_cast hz
  calc mathCeilDiv n (e + 1)
      = (⌈(n : ℚ) / ((e + 1 : ℕ) : ℚ)⌉).toNat := rfl
    _ = ((((n + e) / (e + 1) : ℕ) : ℤ)).toNat := by rw [hceil]
    _ = (n + e) / (e + 1) := Int.toNat_natCast _
    _ = (n + (e + 1) - 1) / (e + 1) := by rw [harith]

/-- C6: on a cache miss with a healthy cache and a positive limit, the page a
list query returns is the date-descending sort of the matching records after
skipping (page-1)*limit and taking at most limit - so its length is
min limit (n - (page-1)*limit) - while total is the full matching count n
(ignoring pagination) and totalPages is ceil(n / limit). -/
theorem getExpenses_pagination_spec
    (userId : String) (q : List (String × String)) (records : List Expense)
    (c : CacheState) (hget : c.getUp = true) (hset : c.setUp = true)
    (hmiss : List.lookup (cacheKey userId q) c.entries = none)
    (hlim : 0 < qnum q "limit" 10) :
    ∃ out,
      getExpenses userId q records true c = .ok out ∧
      out.data.expenses =
        ((sortByDateDesc (listMatching userId q records)).drop
            ((qnum q "page" 1 - 1) * qnum q "limit" 10)).take (qnum q "limit" 10) ∧
      List.Pairwise (fun a b => EDate.leb b.date a.date = true) out.data.expenses ∧
      out.data.expenses.length =
        min (qnum q "limit" 10)
          ((listMatching userId q records).length -
            (qnum q "page" 1 - 1) * qnum q "limit" 10) ∧
      out.data.total = (listMatching userId q records).length ∧
      out.data.totalPages =
        ((listMatching userId q records).length + qnum q "limit" 10 - 1) /
          qnum q "limit" 10 := by
  refine ⟨_, getExpenses_miss userId q records c hget hset hmiss, rfl, ?_, ?_, rfl, ?_⟩
  · exact (pairwise_sortByDateDesc _).sublist
      ((List.take_sublist _ _).trans (List.drop_sublist _ _))
  · show (((sortByDateDesc (listMatching userId q records)).drop _).take _).length = _
    rw [List.length_take, List.length_drop, length_sortByDateDesc]
  · exact mathCeilDiv_eq _ _ hlim

/-- C6 witness: the theorem applied to the spec's pagination test vector:
25 matching records, limit 10, page 3 (so the page holds 5 records and
totalPages is 3). -/
theorem getExpenses_pagination_spec_witness :
    cacheEmptyUp.getUp = true ∧ cacheEmptyUp.setUp = true ∧
    List.lookup (cacheKey "A" [("page", "3"), ("limit", "10")]) cacheEmptyUp.entries =
      none ∧
    0 < qnum [("page", "3"), ("limit", "10")] "limit" 10 ∧
    (listMatching "A" [("page", "3"), ("limit", "10")] records25).length = 25 ∧
    min (qnum [("page", "3"), ("limit", "10")] "limit" 10)
      ((listMatching "A" [("page", "3"), ("limit", "10")] records25).length -
        (qnum [("page", "3"), ("limit", "10")] "page" 1 - 1) *
          qnum [("page", "3"), ("limit", "10")] "limit" 10) = 5 ∧
    ((listMatching "A" [("page", "3"), ("limit", "10")] records25).length +
        qnum [("page", "3"), ("limit", "10")] "limit" 10 - 1) /
      qnum [("page", "3"), ("limit", "10")] "limit" 10 = 3 ∧
    (∃ out,
      getExpenses "A" [("page", "3"), ("limit", "10")] records25 true cacheEmptyUp =
        .ok out ∧
      out.data.expenses =
        ((sortByDateDesc (listMatching "A" [("page", "3"), ("limit", "10")] records25)).drop
            ((qnum [("page", "3"), ("limit", "10")] "page" 1 - 1) *
              qnum [("page", "3"), ("limit", "10")] "limit" 10)).take
          (qnum [("page", "3"), ("limit", "10")] "limit" 10) ∧
      List.Pairwise (fun a b => EDate.leb b.date a.date = true) out.data.expenses ∧
      out.data.expenses.length =
        min (qnum [("page", "3"), ("limit", "10")] "limit" 10)
          ((listMatching "A" [("page", "3"), ("limit", "10")] records25).length -
            (qnum [("page", "3"), ("limit", "10")] "page" 1 - 1) *
              qnum [("page", "3"), ("limit", "10")] "limit" 10) ∧
      out.data.total =
        (listMatching "A" [("page", "3"), ("limit", "10")] records25).length ∧
      out.data.totalPages =
        ((listMatching "A" [("page", "3"), ("limit", "10")] records25).length +
            qnum [("page", "3"), ("limit", "10")] "limit" 10 - 1) /
          qnum [("page", "3"), ("limit", "10")] "limit" 10) :=
  ⟨rfl, rfl, rfl, by decide, by decide, by decide, by decide,
    getExpenses_pagination_spec "A" [("page", "3"), ("limit", "10")] records25
      cacheEmptyUp rfl rfl rfl (by decide)⟩

theorem updateExpense_snd (A id : String) (b : UpdateBody) (records : List Expense) :
    (updateExpense A id b records).2 = (findOneAndUpdate id A b records).2 := by
  cases h : (findOneAndUpdate id A b records).1 <;> simp [updateExpense, h]

theorem deleteExpense_snd (A id : String) (records : List Expense) :
    (deleteExpense A id records).2 = (findOneAndDelete id A records).2 := by
  cases h : (findOneAndDelete id A records).1 <;> simp [deleteExpense, h]

theorem findOneAndUpdate_foreign (id A B : String) (hAB : A ≠ B) (b : UpdateBody)
    (records : List Expense) :
    (findOneAndUpdate id A b records).2.filter (fun e => e.user == B) =
      records.filter (fun e => e.user == B) := by
  induction records with
  | nil => rfl
  | cons e rest ih =>
      by_cases h : (e.eid == id && e.user == A) = true
      · have hA : e.user = A := by
          have h2 := h
          simp only [Bool.and_eq_true] at h2
          exact beq_iff_eq.mp h2.2
        have hB : (e.user == B) = false := beq_eq_false_iff_ne.mpr (hA ▸ hAB)
        simp [findOneAndUpdate, h, List.filter_cons, applyUpdate, hB]
      · simp [findOneAndUpdate, h, List.filter_cons, ih]

theorem findOneAndDelete_foreign (id A B : String) (hAB : A ≠ B)
    (records : List Expense) :
    (findOneAndDelete id A records).2.filter (fun e => e.user == B) =
      records.filter (fun e => e.user == B) := by
  induction records with
  | nil => rfl
  | cons e rest ih =>
      by_cases h : (e.eid == id && e.user == A) = true
      · have hA : e.user = A := by
          have h2 := h
          simp only [Bool.and_eq_true] at h2
          exact beq_iff_eq.mp h2.2
        have hB : (e.user == B) = false := beq_eq_false_iff_ne.mpr (hA ▸ hAB)
        simp [findOneAndDelete, h, List.filter_cons, hB]
      · simp [findOneAndDelete, h, List.filter_cons, ih]

theorem listMatching_user (A : String) (q : List (String × String))
    (records : List Expense) : ∀ e ∈ listMatching A q records, e.user = A := by
  intro e he
  have hm := List.of_mem_filter he
  simp only [matchesQuery, Bool.and_eq_true] at hm
  exact beq_iff_eq.mp hm.1.1.1

theorem statsInput_user (A : String) (startDate endDate : Option String)
    (now : EDate) (records : List Expense) :
    ∀ e ∈ statsInput A startDate endDate now records, e.user = A := by
  intro e he
  have hm := List.of_mem_filter he
  simp only [Bool.and_eq_true] at hm
  exact beq_iff_eq.mp hm.1.1

/-- C7: owner scoping.  For distinct owners A and B: the list endpoint's
store filter and the statistics match stage select only A's records (so B's
are never returned), and the mutating operations - update, delete, bulk
delete - leave B's records in the store exactly as they were, whatever id,
body or id list A supplies. -/
theorem owner_scoping_invariant (A B : String) (hAB : A ≠ B)
    (q : List (String × String)) (records : List Expense)
    (startDate endDate : Option String) (now : EDate)
    (id : String) (b : UpdateBody) (body : BodyIds) :
    (∀ e ∈ listMatching A q records, e.user ≠ B) ∧
    (∀ e ∈ statsInput A startDate endDate now records, e.user ≠ B) ∧
    (updateExpense A id b records).2.filter (fun e => e.user == B) =
      records.filter (fun e => e.user == B) ∧
    (deleteExpense A id records).2.filter (fun e => e.user == B) =
      records.filter (fun e => e.user == B) ∧
    (bulkDeleteExpenses A body records).2.filter (fun e => e.user == B) =
      records.filter (fun e => e.user == B) := by
  refine ⟨?_, ?_, ?_, ?_, ?_⟩
  · intro e he
    rw [listMatching_user A q records e he]
    exact hAB
  · intro e he
    rw [statsInput_user A startDate endDate now records e he]
    exact hAB
  · rw [updateExpense_snd]
    exact findOneAndUpdate_foreign id A B hAB b records
  · rw [deleteExpense_snd]
    exact findOneAndDelete_foreign id A B hAB records
  · cases body with
    | missing => rfl
    | notAnArray => rfl
    | arr ids =>
        by_cases hne : ids.isEmpty
        · simp [bulkDeleteExpenses, hne]
        · simp only [bulkDeleteExpenses, hne, Bool.false_eq_true, if_false]
          rw [List.filter_filter]
          apply List.filter_congr
          intro e he
          by_cases hB : e.user = B
          · have hA2 : (B == A) = false :=
              beq_eq_false_iff_ne.mpr (fun hh => hAB hh.symm)
            simp only [hB, hA2, Bool.and_false, Bool.not_false, Bool.and_true]
          · simp [beq_eq_false_iff_ne.mpr hB]

/-- C7 witness: the theorem applied to owners "A" and "B", the two-owner
store, an update/delete targeting B's id "3" and a bulk delete listing ids
of both owners. -/
theorem owner_scoping_invariant_witness :
    "A" ≠ "B" ∧
    ((∀ e ∈ listMatching "A" [] mixedStore, e.user ≠ "B") ∧
    (∀ e ∈ statsInput "A" none none ⟨2024, 12, 31⟩ mixedStore, e.user ≠ "B") ∧
    (updateExpense "A" "3" ⟨99, "x", ⟨2024, 3, 3⟩, "misc", "cash"⟩ mixedStore).2.filter
        (fun e => e.user == "B") =
      mixedStore.filter (fun e => e.user == "B") ∧
    (deleteExpense "A" "3" mixedStore).2.filter (fun e => e.user == "B") =
      mixedStore.filter (fun e => e.user == "B") ∧
    (bulkDeleteExpenses "A" (.arr ["1", "2", "3"]) mixedStore).2.filter
        (fun e => e.user == "B") =
      mixedStore.filter (fun e => e.user == "B")) :=
  ⟨by decide,
    owner_scoping_invariant "A" "B" (by decide) [] mixedStore none none ⟨2024, 12, 31⟩
      "3" ⟨99, "x", ⟨2024, 3, 3⟩, "misc", "cash"⟩ (.arr ["1", "2", "3"])⟩

theorem findOneAndUpdate_none (id A : String) (b : UpdateBody)
    (records : List Expense)
    (h : ∀ e ∈ records, ¬(e.eid = id ∧ e.user = A)) :
    findOneAndUpdate id A b records = (none, records) := by
  induction records with
  | nil => rfl
  | cons e rest ih =>
      have he : (e.eid == id && e.user == A) = false := by
        rw [Bool.eq_false_iff]
        intro hcontra
        simp only [Bool.and_eq_true, beq_iff_eq] at hcontra
        exact h e (List.mem_cons_self e rest) hcontra
      have ih2 := ih (fun x hx => h x (List.mem_cons_of_mem e hx))
      simp [findOneAndUpdate, he, ih2]

theorem findOneAndDelete_none (id A : String) (records : List Expense)
    (h : ∀ e ∈ records, ¬(e.eid = id ∧ e.user = A)) :
    findOneAndDelete id A records = (none, records) := by
  induction records with
  | nil => rfl
  | cons e rest ih =>
      have he : (e.eid == id && e.user == A) = false := by
        rw [Bool.eq_false_iff]
        intro hcontra
        simp only [Bool.and_eq_true, beq_iff_eq] at hcontra
        exact h e (List.mem_cons_self e rest) hcontra
      have ih2 := ih (fun x hx => h x (List.mem_cons_of_mem e hx))
      simp [findOneAndDelete, he, ih2]

theorem firstMatch_split (id A : String) (records : List Expense)
    (e0 : Expense) (he0 : e0 ∈ records) (hid : e0.eid = id) (hA : e0.user = A) :
    ∃ pre e1 post, records = pre ++ e1 :: post ∧
      (∀ x ∈ pre, (x.eid == id && x.user == A) = false) ∧
      e1.eid = id ∧ e1.user = A := by
  induction records with
  | nil => cases he0
  | cons e rest ih =>
      by_cases h : (e.eid == id && e.user == A) = true
      · have h2 := h
        simp only [Bool.and_eq_true, beq_iff_eq] at h2
        exact ⟨[], e, rest, rfl, by simp, h2.1, h2.2⟩
      · have he0r : e0 ∈ rest := by
          rcases List.mem_cons.mp he0 with rfl | hr
          · exact absurd (by simp [beq_iff_eq, hid, hA]) h
          · exact hr
        obtain ⟨pre, e1, post, hsplit, hpre, h1, h2⟩ := ih he0r
        refine ⟨e :: pre, e1, post, by rw [hsplit, List.cons_append], ?_, h1, h2⟩
        intro x hx
        rcases List.mem_cons.mp hx with rfl | hxpre
        · exact Bool.eq_false_iff.mpr h
        · exact hpre x hxpre

theorem findOneAndUpdate_append (id A : String) (b : UpdateBody)
    (pre post : List Expense) (e1 : Expense)
    (hpre : ∀ x ∈ pre, (x.eid == id && x.user == A) = false)
    (he1 : (e1.eid == id && e1.user == A) = true) :
    findOneAndUpdate id A b (pre ++ e1 :: post) =
      (some (applyUpdate b e1), pre ++ applyUpdate b e1 :: post) := by
  induction pre with
  | nil => simp [findOneAndUpdate, he1]
  | cons x xs ih =>
      have hx := hpre x (List.mem_cons_self x xs)
      have ih2 := ih (fun y hy => hpre y (List.mem_cons_of_mem x hy))
      simp [findOneAndUpdate, hx, ih2]

theorem findOneAndDelete_append (id A : String)
    (pre post : List Expense) (e1 : Expense)
    (hpre : ∀ x ∈ pre, (x.eid == id && x.user == A) = false)
    (he1 : (e1.eid == id && e1.user == A) = true) :
    findOneAndDelete id A (pre ++ e1 :: post) = (some e1, pre ++ post) := by
  induction pre with
  | nil => simp [findOneAndDelete, he1]
  | cons x xs ih =>
      have hx := hpre x (List.mem_cons_self x xs)
      have ih2 := ih (fun y hy => hpre y (List.mem_cons_of_mem x hy))
      simp [findOneAndDelete, hx, ih2]

/-- C8: update and delete are owner-scoped find-by-id operations.  When no
record matches the id under the caller's owner scope (including an id that
exists but belongs to another owner), both return the 404 "Expense not
found" error and leave the store unchanged.  When a record matches, update
replaces exactly the five data fields of the (first) match, keeping its id
and owner, and returns the updated document, while delete removes exactly
that record from the store. -/
theorem update_delete_notfound_and_replace (A id : String) (b : UpdateBody)
    (records : List Expense) :
    ((∀ e ∈ records, ¬(e.eid = id ∧ e.user = A)) →
      updateExpense A id b records =
        (.error (.api 404 "Expense not found"), records) ∧
      deleteExpense A id records =
        (.error (.api 404 "Expense not found"), records)) ∧
    (∀ e0 ∈ records, e0.eid = id → e0.user = A →
      ∃ pre e1 post,
        records = pre ++ e1 :: post ∧ e1.eid = id ∧ e1.user = A ∧
        updateExpense A id b records =
          (.ok (applyUpdate b e1), pre ++ applyUpdate b e1 :: post) ∧
        (applyUpdate b e1).amount = b.amount ∧
        (applyUpdate b e1).description = b.description ∧
        (applyUpdate b e1).date = b.date ∧
        (applyUpdate b e1).category = b.category ∧
        (applyUpdate b e1).paymentMethod = b.paymentMethod ∧
        (applyUpdate b e1).eid = e1.eid ∧
        (applyUpdate b e1).user = e1.user ∧
        deleteExpense A id records = (.ok (), pre ++ post)) := by
  constructor
  · intro h
    have hu := findOneAndUpdate_none id A b records h
    have hd := findOneAndDelete_none id A records h
    constructor
    · simp [updateExpense, hu]
    · simp [deleteExpense, hd]
  · intro e0 he0 hid hA
    obtain ⟨pre, e1, post, hsplit, hpre, h1, h2⟩ :=
      firstMatch_split id A records e0 he0 hid hA
    have he1 : (e1.eid == id && e1.user == A) = true := by
      simp [beq_iff_eq, h1, h2]
    refine ⟨pre, e1, post, hsplit, h1, h2, ?_, rfl, rfl, rfl, rfl, rfl, rfl, rfl, ?_⟩
    · rw [hsplit]
      simp [updateExpense, findOneAndUpdate_append id A b pre post e1 hpre he1]
    · rw [hsplit]
      simp [deleteExpense, findOneAndDelete_append id A pre post e1 hpre he1]

theorem countP_add_filter_not_length (p : Expense → Bool) (l : List Expense) :
    l.countP p + (l.filter (fun e => !p e)).length = l.length := by
  induction l with
  | nil => rfl
  | cons e rest ih =>
      by_cases h : p e = true
      · simp only [List.countP_cons, List.filter_cons, h, if_pos trivial,
          Bool.not_true, Bool.false_eq_true, if_false, List.length_cons]
        omega
      · have h2 : p e = false := Bool.eq_false_iff.mpr h
        simp only [List.countP_cons, List.filter_cons, h2, Bool.not_false,
          if_pos trivial, Bool.false_eq_true, if_false, List.length_cons]
        omega

/-- C9: bulk delete rejects a missing id list, a non-array id list, or an
empty id list with the 400 "Valid expense IDs are required" error and
deletes nothing; otherwise it removes exactly the records whose id is listed
and which the caller owns, answers ok with that count, and keeps every other
record (count + remaining = original size). -/
theorem bulkDelete_spec (A : String) (body : BodyIds) (records : List Expense) :
    ((body = .missing ∨ body = .notAnArray ∨ body = .arr []) →
      bulkDeleteExpenses A body records =
        (.error (.api 400 "Valid expense IDs are required"), records)) ∧
    (∀ ids, body = .arr ids → ids ≠ [] →
      bulkDeleteExpenses A body records =
        (.ok (records.countP (fun e => ids.contains e.eid && e.user == A)),
         records.filter (fun e => !(ids.contains e.eid && e.user == A))) ∧
      records.countP (fun e => ids.contains e.eid && e.user == A) +
        (bulkDeleteExpenses A body records).2.length = records.length) := by
  constructor
  · rintro (rfl | rfl | rfl) <;> rfl
  · rintro ids rfl hne
    have hni : ids.isEmpty = false := by
      cases ids
      · exact absurd rfl hne
      · rfl
    have hsnd : (bulkDeleteExpenses A (.arr ids) records).2 =
        records.filter (fun e => !(ids.contains e.eid && e.user == A)) := by
      simp [bulkDeleteExpenses, hni]
    refine ⟨by simp [bulkDeleteExpenses, hni], ?_⟩
    rw [hsnd]
    exact countP_add_filter_not_length _ records

/-- C10: an add request whose amount is the number 0, with description,
date, category and paymentMethod all present and non-empty, is rejected with
the 400 "All fields are required" validation error and creates no record:
the presence check uses JS truthiness, under which the number 0 is
indistinguishable from a missing field. -/
theorem addExpense_zero_amount_rejected (userId freshId : String)
    (d dt c pm : String) (records : List Expense)
    (_hd : d ≠ "") (_hdt : dt ≠ "") (_hc : c ≠ "") (_hpm : pm ≠ "") :
    addExpense userId freshId ⟨some 0, some d, some dt, some c, some pm⟩ records =
      (.error (.api 400 "All fields are required"), records) := by
  simp [addExpense, truthyNum, truthyStr, bne_self_eq_false]

/-- C10 witness: the theorem applied to a complete, otherwise-valid add
request for a zero-amount expense against the empty store. -/
theorem addExpense_zero_amount_rejected_witness :
    ("lunch" : String) ≠ "" ∧ ("2024-01-02" : String) ≠ "" ∧
    ("food" : String) ≠ "" ∧ ("card" : String) ≠ "" ∧
    addExpense "A" "9" ⟨some 0, some "lunch", some "2024-01-02", some "food",
        some "card"⟩ [] =
      (.error (.api 400 "All fields are required"), []) :=
  ⟨by decide, by decide, by decide, by decide,
    addExpense_zero_amount_rejected "A" "9" "lunch" "2024-01-02" "food" "card" []
      (by decide) (by decide) (by decide) (by decide)⟩

end ExpenseBackend
